/-
Verification of the pancaketrade trading engine against its specification.

This file gives a shallow embedding, in Lean 4, of the parts of the program
that the checked properties are about:

* `pancaketrade/watchers/order.py` — the `OrderWatcher` trigger state machine
  (`price_update`, `price_update_buy`, `price_update_sell`, `close`);
* `pancaketrade/network/bsc.py` — the chain-facing client (`find_lp_address`,
  `get_bnb_price`, `find_biggest_lp`, `get_token_price_for_lp`,
  `get_token_price`, `get_best_swap_path`, `calculate_price_impact`,
  `get_token_balance`, `get_token_balance_value`, `get_tx_params`,
  `build_and_send_tx`).

Python `Decimal` values are modelled as exact rationals (`ℚ`); the source
performs only field operations and comparisons on them at the scales studied
here.  Python exceptions that escape a function are modelled by `Option`
(`none` = the call raises); a `try/except` that swallows the exception is
modelled by the value the handler produces.  The chain (RPC results, contract
calls) is modelled as an explicit environment record `Network` whose function
fields stand for the oracles the code queries.
-/
import Mathlib

set_option autoImplicit false

namespace Pancaketrade

/-! ## Order watcher state machine (`pancaketrade/watchers/order.py`) -/

/-- Field `order_record.type`: `"buy"` (tokens for BNB) or `"sell"` (tokens for BNB). -/
inductive OrderType where
  | buy
  | sell
  deriving DecidableEq, Repr

/-- The mutable state of an `OrderWatcher` that trigger evaluation reads and
writes: the trigger parameters of the order (fixed at construction) plus the
runtime fields `active`, `finished`, `min_price`, `max_price`
(order.py lines 34-48). -/
structure OrderWatcher where
  type : OrderType
  /-- Optional limit price; `None` means none set (market-order semantics). -/
  limit_price : Option ℚ
  /-- Comparison direction: `above = True`, `below = False`. -/
  above : Bool
  /-- Trailing stop callback in percent, `None` if not a trailing-stop order. -/
  trailing_stop : Option ℤ
  active : Bool
  finished : Bool
  min_price : Option ℚ
  max_price : Option ℚ
  deriving DecidableEq, Repr

/-- Python truthiness of the `Optional[int]` field `trailing_stop`:
`None` and `0` are falsy, everything else is truthy. -/
def truthy (x : Option ℤ) : Prop :=
  x ≠ none ∧ x ≠ some 0

instance (x : Option ℤ) : Decidable (truthy x) := by
  unfold truthy; infer_instance

/-- Embeds `OrderWatcher.close` (order.py lines 173-191): marks the watcher inactive
and dispatches the asynchronous settlement (`start_in_thread`).  The returned
`Bool` records that a settlement was dispatched on this call. -/
def close (w : OrderWatcher) : OrderWatcher × Bool :=
  ({ w with active := false }, true)

/-- Embeds `OrderWatcher.price_update_buy` (order.py lines 113-140).  Returns the
updated watcher state together with whether `close()` ran on this tick. -/
def price_update_buy (w : OrderWatcher) (price : ℚ) : OrderWatcher × Bool :=
  if price = 0 then (w, false)
  else
    -- fulfill condition immediately if we have no limit price
    let limit_price := w.limit_price.getD price
    if w.trailing_stop = none ∧ w.above = false ∧ price ≤ limit_price then
      close w
    else if truthy w.trailing_stop ∧ w.above = false ∧
        (price ≤ limit_price ∨ w.min_price ≠ none) then
      -- `if self.min_price is None: ... self.min_price = price`
      let w1 := if w.min_price = none then { w with min_price := some price } else w
      -- here `w1.min_price` is always `some`; `getD` never uses its default
      let m := w1.min_price.getD price
      let rise := (price / m - 1) * 100
      if price < m then ({ w1 with min_price := some price }, false)
      else if rise > ((w.trailing_stop.getD 0 : ℤ) : ℚ) then close w1
      else (w1, false)
    else (w, false)

/-- Embeds `OrderWatcher.price_update_sell` (order.py lines 142-171). -/
def price_update_sell (w : OrderWatcher) (price : ℚ) : OrderWatcher × Bool :=
  if price = 0 then (w, false)
  else
    -- fulfill condition immediately if we have no limit price
    let limit_price := w.limit_price.getD price
    if w.trailing_stop = none ∧ w.above = false ∧ price ≤ limit_price then
      close w
    else if w.trailing_stop = none ∧ w.above = true ∧ price ≥ limit_price then
      close w
    else if truthy w.trailing_stop ∧ w.above = true ∧
        (price ≥ limit_price ∨ w.max_price ≠ none) then
      let w1 := if w.max_price = none then { w with max_price := some price } else w
      let m := w1.max_price.getD price
      let drop := (1 - price / m) * 100
      if price > m then ({ w1 with max_price := some price }, false)
      else if drop > ((w.trailing_stop.getD 0 : ℤ) : ℚ) then close w1
      else (w1, false)
    else (w, false)

/-- Embeds `OrderWatcher.price_update` (order.py lines 104-111): ignore ticks when
inactive, otherwise dispatch on the order type. -/
def price_update (w : OrderWatcher) (price : ℚ) : OrderWatcher × Bool :=
  if w.active = false then (w, false)
  else if w.type = OrderType.buy then price_update_buy w price
  else price_update_sell w price

/-- Deliver a sequence of price ticks to a watcher, counting how many of the
ticks dispatched a settlement (`close`). -/
def run_ticks : OrderWatcher → List ℚ → OrderWatcher × ℕ
  | w, [] => (w, 0)
  | w, p :: ps =>
    let r := price_update w p
    let rest := run_ticks r.1 ps
    (rest.1, (if r.2 then 1 else 0) + rest.2)

/-- A live limit-buy order with limit price 5 and no trailing stop. -/
def limitBuyW : OrderWatcher :=
  { type := OrderType.buy, limit_price := some 5, above := false,
    trailing_stop := none, active := true, finished := false,
    min_price := none, max_price := none }

/-- A live market order (no limit price) on the sell side with a 5% trailing
stop, as created by the "sell now" flow (buysell.py lines 312-313 sets
`limit_price = ""` and `above = True` for sells, with an optional callback). -/
def marketTrailingSellW : OrderWatcher :=
  { type := OrderType.sell, limit_price := none, above := true,
    trailing_stop := some 5, active := true, finished := false,
    min_price := none, max_price := none }

/-- A live market buy order (no limit price, `above = False`) without a
trailing stop. -/
def marketBuyW : OrderWatcher :=
  { type := OrderType.buy, limit_price := none, above := false,
    trailing_stop := none, active := true, finished := false,
    min_price := none, max_price := none }

/-- A trailing buy order with a 5% callback, already armed with recorded
minimum 8 (the worked example of the spec). -/
def armedTrailingBuyW : OrderWatcher :=
  { type := OrderType.buy, limit_price := some 10, above := false,
    trailing_stop := some 5, active := true, finished := false,
    min_price := some 8, max_price := none }

/-- A fresh (not yet armed) trailing buy order, limit 10, 5% callback. -/
def freshTrailingBuyW : OrderWatcher :=
  { type := OrderType.buy, limit_price := some 10, above := false,
    trailing_stop := some 5, active := true, finished := false,
    min_price := none, max_price := none }

/-- A fresh (not yet armed) trailing sell order, limit 10, 5% callback. -/
def freshTrailingSellW : OrderWatcher :=
  { type := OrderType.sell, limit_price := some 10, above := true,
    trailing_stop := some 5, active := true, finished := false,
    min_price := none, max_price := none }

/-- A trailing sell order with a 5% callback, armed with recorded maximum 10. -/
def armedTrailingSellW : OrderWatcher :=
  { type := OrderType.sell, limit_price := some 8, above := true,
    trailing_stop := some 5, active := true, finished := false,
    min_price := none, max_price := some 10 }

/-! ## Chain client (`pancaketrade/network/bsc.py`) -/

/-- Checksum addresses are modelled as strings. -/
abbrev Addr := String

/-- Constant `NetworkAddresses.wbnb` (bsc.py line 25). -/
def WBNB : Addr := "0xbb4CdB9CBd36B01bD1cBaEBF2De08d9173bc095c"

/-- Constant `NetworkAddresses.busd` (bsc.py line 26). -/
def BUSD : Addr := "0xe9e7CEA3DedcA5984780Bafc599bD69ADd087D56"

/-- Constant `NetworkAddresses.usdt` (bsc.py line 27). -/
def USDT : Addr := "0x55d398326f99059ff775485246999027b3197955"

/-- The configuration and cached state of the `Network` object together with the
oracles for the chain queries it performs.  Function fields stand for the
results of the corresponding contract calls during the evaluation studied. -/
structure Network where
  wallet : Addr
  price_in_usd : Bool
  min_pool_size_bnb : ℚ
  /-- Oracle for `factory_v1.getPair(token, base)`: the program constructs this contract
  (bsc.py lines 28, 38) but, as proved below, never queries it. -/
  pairV1 : Addr → Addr → Option Addr
  /-- Oracle for `factory_v2.getPair(token, base)`; `none` models the zero-address
  "pair does not exist" result. -/
  pairV2 : Addr → Addr → Option Addr
  /-- Oracle for `token.balanceOf(holder)`, raw integer units. -/
  balanceOf : Addr → Addr → ℕ
  /-- Oracle for `token.decimals()`. -/
  decimals : Addr → ℕ
  /-- Oracle for `router_v2.getAmountsOut(amount_in, path)[-1]`; `none` models a
  `ContractLogicError` revert (invalid pair). -/
  getAmountsOut : ℕ → List Addr → Option ℕ
  /-- Cache `self.last_nonce`, the locally stored next nonce. -/
  last_nonce : ℕ
  /-- Oracle for `w3.eth.get_transaction_count(self.wallet)`. -/
  transaction_count : ℕ

/-- Constant `self.supported_base_tokens` (bsc.py line 94). -/
def supported_base_tokens : List Addr := [WBNB, BUSD, USDT]

/-- The exact rational value of the IEEE-754 double denoted by the Python
float literal `1e-30` (bsc.py lines 165, 309); `Decimal < float` in Python
compares the exact values, so this is the clamp threshold actually used.
It is slightly larger than `10⁻³⁰`. -/
def floatLit_1e30 : ℚ := 5708990770823840 / 2 ^ 152

/-- Embeds `Network.find_lp_address` (bsc.py lines 454-476): queries *only*
`factory_v2.getPair`; the LRU cache is behaviourally transparent for a fixed
chain state and is not modelled. -/
def find_lp_address (net : Network) (token_address base_token_address : Addr) :
    Option Addr :=
  net.pairV2 token_address base_token_address

/-- Embeds `Network.get_bnb_price` (bsc.py lines 334-349): BUSD reserve over WBNB
reserve of the BNB/BUSD pool.  `none` models the raised `ValueError` when the
pool is missing, or the `Decimal` division by zero when the WBNB reserve is
zero. -/
def get_bnb_price (net : Network) : Option ℚ :=
  match find_lp_address net BUSD WBNB with
  | none => none
  | some lp =>
    let bnb_amount := (net.balanceOf WBNB lp : ℚ)
    let busd_amount := (net.balanceOf BUSD lp : ℚ)
    if bnb_amount = 0 then none else some (busd_amount / bnb_amount)

/-- Implements the Python `max(range(len(xs)), key=lambda i: xs[i])`: the first index
attaining the maximum (later elements replace only on strict increase). -/
def argmaxIdx (xs : List ℚ) : ℕ :=
  (List.range xs.length).foldl
    (fun best i => if xs.getD i 0 > xs.getD best 0 then i else best) 0

/-- One element of the `lp_balances` list comprehension
(bsc.py line 365): the balance of `token` held by the pool, or 0 for a missing pool. -/
def lp_token_balance (net : Network) (token : Addr) : Option Addr → ℚ
  | some lp => (net.balanceOf token lp : ℚ)
  | none => 0

/-- Embeds `Network.find_biggest_lp` (bsc.py lines 351-367): among candidate pool
addresses (`none` entries count as balance 0), the pool holding the most of
`token`, together with its index in the input list. -/
def find_biggest_lp (net : Network) (token : Addr) (lps : List (Option Addr)) :
    Option Addr × ℕ :=
  let lp_balances := lps.map (lp_token_balance net token)
  let argmax := argmaxIdx lp_balances
  (lps.getD argmax none, argmax)

/-- The un-clamped `value` computed by `get_token_price_for_lp`
(bsc.py lines 291-308) once the pool-size guards have passed: reserves
normalized to 18 decimals, ratio (the `try/except` around the division maps
division by zero to 0, which coincides with the ℚ convention), then conversion
to the configured numeraire. -/
def lp_raw_price (net : Network) (token base lp : Addr) (bnb_price : ℚ) : ℚ :=
  let base_amount := (net.balanceOf base lp : ℚ) * (10 : ℚ) ^ ((18 : ℤ) - net.decimals base)
  let token_amount := (net.balanceOf token lp : ℚ) * (10 : ℚ) ^ ((18 : ℤ) - net.decimals token)
  let base_per_token := base_amount / token_amount
  if net.price_in_usd then
    if base ≠ WBNB then base_per_token else base_per_token * bnb_price
  else
    if base = WBNB then base_per_token else base_per_token / bnb_price

/-- Embeds `Network.get_token_price_for_lp` (bsc.py lines 255-309).  `none` models a
raised exception: the `elif` pool-size test always invokes `get_bnb_price`
(which raises when the BNB/BUSD pool is missing) and divides by it (which
raises when that price is zero). -/
def get_token_price_for_lp (net : Network) (token base : Addr)
    (ignore_poolsize : Bool) : Option ℚ :=
  match find_lp_address net token base with
  | none => some 0
  | some lp =>
    let base_amount := (net.balanceOf base lp : ℚ) * (10 : ℚ) ^ ((18 : ℤ) - net.decimals base)
    if base = WBNB ∧ base_amount / 10 ^ 18 < net.min_pool_size_bnb ∧ ignore_poolsize = false then
      some 0  -- Not enough liquidity
    else
      match get_bnb_price net with
      | none => none
      | some bnb_price =>
        if bnb_price = 0 then none
        else if (base_amount / bnb_price) / 10 ^ 18 < net.min_pool_size_bnb ∧
            ignore_poolsize = false then
          some 0  -- Not enough liquidity
        else
          let value := lp_raw_price net token base lp bnb_price
          some (if value < floatLit_1e30 then 0 else value)  -- artifact with small numbers

/-- Embeds `Network.get_token_price` (bsc.py lines 223-253): special-cases WBNB,
collects the v2 pools for the three supported quote tokens, and prices from
the pool holding the most of the target token (with `ignore_poolsize=True`).
The 1-second TTL cache is behaviourally transparent for a fixed chain state
and is not modelled. -/
def get_token_price (net : Network) (token_address : Addr) : Option (ℚ × Addr) :=
  if token_address = WBNB ∧ net.price_in_usd = true then
    (get_bnb_price net).map (fun p => (p, WBNB))
  else if token_address = WBNB then some (1, WBNB)
  else
    let supported_lps := supported_base_tokens.map
      (fun base => find_lp_address net token_address base)
    if supported_lps.all (fun lp => lp = none) then some (0, WBNB)  -- not trading yet
    else
      let r := find_biggest_lp net token_address supported_lps
      let base_token_address := supported_base_tokens.getD r.2 WBNB
      match r.1 with
      | none => some (0, base_token_address)
      | some _ =>
        (get_token_price_for_lp net token_address base_token_address true).map
          (fun p => (p, base_token_address))

/-- Embeds `Network.get_token_balance` (bsc.py lines 167-184): wallet balance scaled
by the decimals of the token (the `ABIFunctionNotFound`/`ContractLogicError`
handler is unreachable against a total oracle). -/
def get_token_balance (net : Network) (token_address : Addr) : ℚ :=
  (net.balanceOf token_address net.wallet : ℚ) / 10 ^ net.decimals token_address

/-- Embeds `Network.get_token_balance_value` (bsc.py lines 143-165). -/
def get_token_balance_value (net : Network) (token_address : Addr)
    (balance? : Option ℚ) (token_price? : Option ℚ) : Option ℚ := do
  let balance ← match balance? with
    | some b => pure b
    | none => pure (get_token_balance net token_address)
  let token_price ← match token_price? with
    | some tp => pure tp
    | none => (get_token_price net token_address).map Prod.fst
  let value := token_price * balance  -- artifact when balance is zero -> 0e-35
  pure (if value < floatLit_1e30 then 0 else value)

/-- The candidate swap paths enumerated by `get_best_swap_path`
(bsc.py lines 432-439): the direct token↔WBNB path followed by one-hop paths
through each supported base token other than WBNB. -/
def candidate_paths (token_address : Addr) (sell : Bool) : List (List Addr) :=
  if sell then
    [token_address, WBNB] ::
      (supported_base_tokens.filter (fun bt => bt ≠ WBNB)).map
        (fun bt => [token_address, bt, WBNB])
  else
    [WBNB, token_address] ::
      (supported_base_tokens.filter (fun bt => bt ≠ WBNB)).map
        (fun bt => [WBNB, bt, token_address])

/-- Implements the `argmax` over the parallel `valid_paths`/`amounts_out` lists
(bsc.py lines 451-452): the first pair whose output is maximal. -/
def pickBest : List (List Addr × ℕ) → Option (List Addr × ℕ)
  | [] => none
  | x :: xs => some (xs.foldl (fun best y => if y.2 > best.2 then y else best) x)

/-- Embeds `Network.get_best_swap_path` (bsc.py lines 408-452).  A candidate whose
quote reverts is dropped; `none` models the raised
`ValueError("No valid pair was found")` when no candidate survives. -/
def get_best_swap_path (net : Network) (token_address : Addr) (amount_in : ℕ)
    (sell : Bool) : Option (List Addr × ℕ) :=
  let valid := (candidate_paths token_address sell).filterMap
    (fun path => (net.getAmountsOut amount_in path).map (fun out => (path, out)))
  pickBest valid

/-- Embeds `Network.calculate_price_impact` (bsc.py lines 369-406).  `none` models a
raised exception (zero price on the buy side, missing BNB price during USD
conversion, no viable route, or a zero fair quote). -/
def calculate_price_impact (net : Network) (token_address : Addr) (amount_in : ℕ)
    (sell : Bool) (token_price? : Option ℚ) (swap_path? : Option (List Addr))
    (amount_out? : Option ℕ) : Option ℚ := do
  let tp0 ← match token_price? with
    | some tp => pure tp
    | none => (get_token_price net token_address).map Prod.fst
  let token_price ← if net.price_in_usd then
      match get_bnb_price net with
      | none => none  -- get_bnb_price raises
      | some bp => if bp = 0 then none else pure (tp0 / bp)
    else pure tp0
  -- quote_amount_out: `amount_in * price` (sell) or `amount_in / price` (buy);
  -- `Decimal` division by a zero price raises
  let quote_amount_out ← if sell then pure ((amount_in : ℚ) * token_price)
    else if token_price = 0 then none else pure ((amount_in : ℚ) / token_price)
  let pr ← match swap_path?, amount_out? with
    | some path, some out => pure (path, out)
    | _, _ => get_best_swap_path net token_address amount_in sell
  let swap_path := pr.1
  let first ← swap_path.head?      -- swap_path[0]
  let last ← swap_path.getLast?    -- swap_path[-1]
  let quote_norm := quote_amount_out * (10 : ℚ) ^ ((18 : ℤ) - net.decimals first)
  let out_norm := (pr.2 : ℚ) * (10 : ℚ) ^ ((18 : ℤ) - net.decimals last)
  if quote_norm = 0 then none  -- Decimal division by zero
  else
    let slippage := (quote_norm - out_norm) / quote_norm
    -- Decimal("0.0025") and Decimal("0.0049375")  # 1 - (1-0.25%)^2
    let lpFee : ℚ := if swap_path.length = 2 then 25 / 10 ^ 4 else 49375 / 10 ^ 7
    pure (slippage - lpFee)

/-- Transaction parameter dictionary built by `get_tx_params`
(bsc.py lines 810-834). -/
structure TxParams where
  fromAddr : Addr
  value : ℕ
  gas : ℕ
  nonce : ℕ
  gasPrice : Option ℕ
  deriving DecidableEq, Repr

/-- Embeds `Network.get_tx_params` (bsc.py lines 810-834): nonce is
`max(self.last_nonce, w3.eth.get_transaction_count(self.wallet))`; a zero
`gas_price` is falsy in `if gas_price:` and therefore omitted. -/
def get_tx_params (net : Network) (value? gas? gas_price? : Option ℕ) : TxParams :=
  { fromAddr := net.wallet
    value := value?.getD 0
    gas := gas?.getD 100000
    nonce := max net.last_nonce net.transaction_count
    gasPrice := match gas_price? with
      | some g => if g = 0 then none else some g
      | none => none }

/-- Embeds `Network.build_and_send_tx` (bsc.py lines 791-808).  `send_result` stands
for the outcome of `w3.eth.send_raw_transaction` (`Except.error` models a
raised exception, re-raised to the caller); the `finally` block advances
`self.last_nonce` to the used nonce plus one on both outcomes. -/
def build_and_send_tx (net : Network) (send_result : Except String ℕ)
    (tx_params? : Option TxParams) : Except String ℕ × Network :=
  let tx_params := tx_params?.getD (get_tx_params net none none none)
  (send_result, { net with last_nonce := tx_params.nonce + 1 })

/-! ## Concrete chain states used for evaluation -/

/-- A chain state where the direct quote (100) is beaten by the one-hop route
through BUSD (250), and the USDT route reverts. -/
def routeNet : Network :=
  { wallet := "WALLET"
    price_in_usd := false
    min_pool_size_bnb := 25
    pairV1 := fun _ _ => none
    pairV2 := fun _ _ => none
    balanceOf := fun _ _ => 0
    decimals := fun _ => 18
    getAmountsOut := fun _ path =>
      if path = ["TKN", WBNB] then some 100
      else if path = ["TKN", BUSD, WBNB] then some 250
      else none
    last_nonce := 0
    transaction_count := 0 }

/-- A chain state whose v1 factory has a deep pool for the token while the v2
factory has none at all. -/
def v1OnlyNet : Network :=
  { wallet := "WALLET"
    price_in_usd := false
    min_pool_size_bnb := 25
    pairV1 := fun t b => if t = "TKN" ∧ b = WBNB then some "LP1" else none
    pairV2 := fun _ _ => none
    balanceOf := fun t h =>
      if t = "TKN" ∧ h = "LP1" then 1000
      else if t = WBNB ∧ h = "LP1" then 2000
      else 0
    decimals := fun _ => 18
    getAmountsOut := fun _ _ => none
    last_nonce := 0
    transaction_count := 0 }

/-- A chain state with two v2 pools for the token: a shallow one against WBNB
(100 tokens) and a deep one against BUSD (1000 tokens, 600 BUSD), plus the
BNB/BUSD pool (2 WBNB, 600 BUSD, so 1 BNB = 300 BUSD). -/
def priceNet : Network :=
  { wallet := "WALLET"
    price_in_usd := false
    min_pool_size_bnb := 25
    pairV1 := fun _ _ => none
    pairV2 := fun t b =>
      if t = "TKN" ∧ b = WBNB then some "LP_TW"
      else if t = "TKN" ∧ b = BUSD then some "LP_TB"
      else if t = BUSD ∧ b = WBNB then some "LP_BNB"
      else none
    balanceOf := fun t h =>
      if t = "TKN" ∧ h = "LP_TW" then 100
      else if t = "TKN" ∧ h = "LP_TB" then 1000
      else if t = BUSD ∧ h = "LP_TB" then 600
      else if t = WBNB ∧ h = "LP_BNB" then 2
      else if t = BUSD ∧ h = "LP_BNB" then 600
      else 0
    decimals := fun _ => 18
    getAmountsOut := fun _ _ => none
    last_nonce := 0
    transaction_count := 0 }

/-- A chain state whose token pool is so lopsided (10³¹ raw token units
against 1 raw WBNB unit) that the computed price falls below the `1e-30`
clamp threshold. -/
def clampNet : Network :=
  { wallet := "WALLET"
    price_in_usd := false
    min_pool_size_bnb := 25
    pairV1 := fun _ _ => none
    pairV2 := fun t b =>
      if t = "TKN" ∧ b = WBNB then some "LPT"
      else if t = BUSD ∧ b = WBNB then some "LPB"
      else none
    balanceOf := fun t h =>
      if t = WBNB ∧ h = "LPT" then 1
      else if t = "TKN" ∧ h = "LPT" then 10 ^ 31
      else if t = WBNB ∧ h = "LPB" then 1
      else if t = BUSD ∧ h = "LPB" then 300
      else 0
    decimals := fun _ => 18
    getAmountsOut := fun _ _ => none
    last_nonce := 0
    transaction_count := 0 }

/-! ## Helper lemmas about the watcher step -/

/-- A fired tick comes out of `close`: the watcher is left inactive, and the
watcher must have been active (a tick on an inactive watcher is dropped in
`price_update`). -/
lemma price_update_buy_active (w : OrderWatcher) (p : ℚ) :
    (price_update_buy w p).1.active = (w.active && !(price_update_buy w p).2) := by
  simp only [price_update_buy, close]
  repeat' split
  all_goals simp

lemma price_update_sell_active (w : OrderWatcher) (p : ℚ) :
    (price_update_sell w p).1.active = (w.active && !(price_update_sell w p).2) := by
  simp only [price_update_sell, close]
  repeat' split
  all_goals simp

lemma price_update_active (w : OrderWatcher) (p : ℚ) :
    (price_update w p).1.active = (w.active && !(price_update w p).2) := by
  unfold price_update
  split
  · simp_all
  · split
    · rw [price_update_buy_active]
    · rw [price_update_sell_active]

lemma price_update_fire_imp_active (w : OrderWatcher) (p : ℚ)
    (h : (price_update w p).2 = true) : w.active = true := by
  unfold price_update at h
  by_contra hc
  simp only [Bool.not_eq_true] at hc
  simp [hc] at h

lemma price_update_inactive (w : OrderWatcher) (p : ℚ) (h : w.active = false) :
    price_update w p = (w, false) := by
  unfold price_update
  simp [h]

lemma run_ticks_inactive (ps : List ℚ) (w : OrderWatcher) (h : w.active = false) :
    run_ticks w ps = (w, 0) := by
  induction ps with
  | nil => rfl
  | cons p ps ih =>
    simp only [run_ticks]
    rw [price_update_inactive w p h]
    simp [ih]

lemma run_ticks_le_one (ps : List ℚ) (w : OrderWatcher) : (run_ticks w ps).2 ≤ 1 := by
  induction ps generalizing w with
  | nil => simp [run_ticks]
  | cons p ps ih =>
    simp only [run_ticks]
    by_cases h : (price_update w p).2 = true
    · have hact : (price_update w p).1.active = false := by
        rw [price_update_active, h]; simp
      rw [run_ticks_inactive ps _ hact]
      simp [h]
    · simp only [Bool.not_eq_true] at h
      simp only [h, if_neg Bool.false_ne_true, zero_add]
      exact ih _

/-- Evaluation of `price_update_buy` on an armed trailing buy order: the tick
either lowers the recorded minimum, fires on a retracement strictly above the
callback, or does nothing. -/
lemma price_update_buy_armed (w : OrderWatcher) (p m : ℚ) (ts : ℤ)
    (hab : w.above = false) (hts : w.trailing_stop = some ts) (hts0 : ts ≠ 0)
    (hmin : w.min_price = some m) (hp : p ≠ 0) :
    price_update_buy w p =
      if p < m then ({ w with min_price := some p }, false)
      else if (p / m - 1) * 100 > (ts : ℚ) then ({ w with active := false }, true)
      else (w, false) := by
  simp only [price_update_buy, close, truthy, hab, hts, hmin, hp, Option.getD_some]
  simp [hts0, hab, hts, hmin]

/-- Evaluation of `price_update_sell` on an armed trailing sell order. -/
lemma price_update_sell_armed (w : OrderWatcher) (p m : ℚ) (ts : ℤ)
    (hab : w.above = true) (hts : w.trailing_stop = some ts) (hts0 : ts ≠ 0)
    (hmax : w.max_price = some m) (hp : p ≠ 0) :
    price_update_sell w p =
      if p > m then ({ w with max_price := some p }, false)
      else if (1 - p / m) * 100 > (ts : ℚ) then ({ w with active := false }, true)
      else (w, false) := by
  simp only [price_update_sell, close, truthy, hab, hts, hmax, hp, Option.getD_some]
  simp [hts0, hab, hts, hmax]

/-- Arming tick of a trailing buy order: when the plain comparison first
holds, the tick price is recorded as the initial minimum and the order does
not fire (the retracement from the fresh extremum is zero). -/
lemma price_update_buy_arm (w : OrderWatcher) (p : ℚ) (ts : ℤ)
    (hab : w.above = false) (hts : w.trailing_stop = some ts) (hts0 : 0 < ts)
    (hmin : w.min_price = none) (hp : p ≠ 0)
    (hcmp : p ≤ w.limit_price.getD p) :
    price_update_buy w p = ({ w with min_price := some p }, false) := by
  have hts' : ts ≠ 0 := ne_of_gt hts0
  have htsq : ¬ ((ts : ℚ) < 0) := by
    have : (0 : ℚ) < (ts : ℚ) := by exact_mod_cast hts0
    linarith
  simp [price_update_buy, close, truthy, hab, hts, hmin, hp, hts', hcmp,
    div_self hp, htsq]

/-- Arming tick of a trailing sell order. -/
lemma price_update_sell_arm (w : OrderWatcher) (p : ℚ) (ts : ℤ)
    (hab : w.above = true) (hts : w.trailing_stop = some ts) (hts0 : 0 < ts)
    (hmax : w.max_price = none) (hp : p ≠ 0)
    (hcmp : p ≥ w.limit_price.getD p) :
    price_update_sell w p = ({ w with max_price := some p }, false) := by
  have hts' : ts ≠ 0 := ne_of_gt hts0
  have htsq : ¬ ((ts : ℚ) < 0) := by
    have : (0 : ℚ) < (ts : ℚ) := by exact_mod_cast hts0
    linarith
  simp [price_update_sell, close, truthy, hab, hts, hmax, hp, hts', hcmp,
    div_self hp, htsq]

/-- Under `price_update_buy` the recorded minimum never increases. -/
lemma price_update_buy_min (w : OrderWatcher) (p m : ℚ)
    (hmin : w.min_price = some m) :
    ∃ m', (price_update_buy w p).1.min_price = some m' ∧ m' ≤ m := by
  simp only [price_update_buy, close, hmin, Option.getD_some]
  repeat' split
  all_goals simp_all
  all_goals try exact le_of_lt (by assumption)

/-- Under `price_update_sell` the recorded minimum is untouched. -/
lemma price_update_sell_min (w : OrderWatcher) (p : ℚ) :
    (price_update_sell w p).1.min_price = w.min_price := by
  simp only [price_update_sell, close]
  repeat' split
  all_goals simp_all

/-- Under `price_update_sell` the recorded maximum never decreases. -/
lemma price_update_sell_max (w : OrderWatcher) (p m : ℚ)
    (hmax : w.max_price = some m) :
    ∃ m', (price_update_sell w p).1.max_price = some m' ∧ m ≤ m' := by
  simp only [price_update_sell, close, hmax, Option.getD_some]
  repeat' split
  all_goals simp_all
  all_goals try exact le_of_lt (by assumption)

/-- Under `price_update_buy` the recorded maximum is untouched. -/
lemma price_update_buy_max (w : OrderWatcher) (p : ℚ) :
    (price_update_buy w p).1.max_price = w.max_price := by
  simp only [price_update_buy, close]
  repeat' split
  all_goals simp_all

/-- On any tick, the recorded minimum of any watcher never increases. -/
lemma price_update_min_mono (w : OrderWatcher) (p m : ℚ)
    (hmin : w.min_price = some m) :
    ∃ m', (price_update w p).1.min_price = some m' ∧ m' ≤ m := by
  unfold price_update
  split
  · exact ⟨m, hmin, le_refl m⟩
  · split
    · exact price_update_buy_min w p m hmin
    · exact ⟨m, by rw [price_update_sell_min, hmin], le_refl m⟩

/-- On any tick, the recorded maximum of any watcher never decreases. -/
lemma price_update_max_mono (w : OrderWatcher) (p m : ℚ)
    (hmax : w.max_price = some m) :
    ∃ m', (price_update w p).1.max_price = some m' ∧ m ≤ m' := by
  unfold price_update
  split
  · exact ⟨m, hmax, le_refl m⟩
  · split
    · exact ⟨m, by rw [price_update_buy_max, hmax], le_refl m⟩
    · exact price_update_sell_max w p m hmax

/-- A zero-price tick is dropped by both update functions. -/
lemma price_update_zero (w : OrderWatcher) : price_update w 0 = (w, false) := by
  unfold price_update price_update_buy price_update_sell
  split
  · rfl
  · split <;> simp

lemma price_update_eq_buy (w : OrderWatcher) (p : ℚ) (hact : w.active = true)
    (hty : w.type = OrderType.buy) : price_update w p = price_update_buy w p := by
  unfold price_update
  simp [hact, hty]

lemma price_update_eq_sell (w : OrderWatcher) (p : ℚ) (hact : w.active = true)
    (hty : w.type = OrderType.sell) : price_update w p = price_update_sell w p := by
  unfold price_update
  simp [hact, hty]

/-- Armed trailing buy order: the tick fires exactly when the rise from the
recorded minimum strictly exceeds the callback percentage. -/
lemma price_update_fire_iff_buy (w : OrderWatcher) (p m : ℚ) (ts : ℤ)
    (hty : w.type = OrderType.buy) (hact : w.active = true)
    (hab : w.above = false) (hts : w.trailing_stop = some ts) (hts0 : 0 < ts)
    (hmin : w.min_price = some m) (hm : 0 < m) (hp : p ≠ 0) :
    ((price_update w p).2 = true ↔ (p / m - 1) * 100 > (ts : ℚ)) := by
  rw [price_update_eq_buy w p hact hty,
    price_update_buy_armed w p m ts hab hts (ne_of_gt hts0) hmin hp]
  split_ifs with h1 h2
  · have hdiv : p / m < 1 := (div_lt_one hm).mpr h1
    have hts' : (0 : ℚ) < (ts : ℚ) := by exact_mod_cast hts0
    simp only [gt_iff_lt]
    constructor
    · intro hf; exact absurd hf (by simp)
    · intro hr; exfalso; linarith
  · simpa using h2
  · simpa using h2

/-- Armed trailing sell order: the tick fires exactly when the drop from the
recorded maximum strictly exceeds the callback percentage. -/
lemma price_update_fire_iff_sell (w : OrderWatcher) (p m : ℚ) (ts : ℤ)
    (hty : w.type = OrderType.sell) (hact : w.active = true)
    (hab : w.above = true) (hts : w.trailing_stop = some ts) (hts0 : 0 < ts)
    (hmax : w.max_price = some m) (hm : 0 < m) (hp : p ≠ 0) :
    ((price_update w p).2 = true ↔ (1 - p / m) * 100 > (ts : ℚ)) := by
  rw [price_update_eq_sell w p hact hty,
    price_update_sell_armed w p m ts hab hts (ne_of_gt hts0) hmax hp]
  split_ifs with h1 h2
  · have hdiv : 1 < p / m := (one_lt_div hm).mpr h1
    have hts' : (0 : ℚ) < (ts : ℚ) := by exact_mod_cast hts0
    simp only [gt_iff_lt]
    constructor
    · intro hf; exact absurd hf (by simp)
    · intro hr; exfalso; linarith
  · simpa using h2
  · simpa using h2

/-- A market buy order (no limit price, below, no trailing stop) fires on any
non-zero tick: the own price of the tick is used as the trigger price. -/
lemma price_update_buy_market_fires (w : OrderWatcher) (p : ℚ)
    (hlimit : w.limit_price = none) (hts : w.trailing_stop = none)
    (hab : w.above = false) (hp : p ≠ 0) :
    price_update_buy w p = ({ w with active := false }, true) := by
  simp [price_update_buy, close, hlimit, hts, hab, hp]

/-- A market sell order without a trailing stop fires on any non-zero tick,
whichever comparison direction it carries. -/
lemma price_update_sell_market_fires (w : OrderWatcher) (p : ℚ)
    (hlimit : w.limit_price = none) (hts : w.trailing_stop = none) (hp : p ≠ 0) :
    price_update_sell w p = ({ w with active := false }, true) := by
  cases hab : w.above <;>
    simp [price_update_sell, close, hlimit, hts, hab, hp]

/-! ## Helper lemmas about route selection -/

/-- The running best of the `argmax` fold is one of the inspected pairs. -/
lemma pick_foldl_mem (xs : List (List Addr × ℕ)) (acc : List Addr × ℕ) :
    xs.foldl (fun best y => if y.2 > best.2 then y else best) acc ∈ acc :: xs := by
  induction xs generalizing acc with
  | nil => simp
  | cons y ys ih =>
    simp only [List.foldl_cons]
    by_cases hy : y.2 > acc.2
    · rw [if_pos hy]
      rcases List.mem_cons.mp (ih y) with h1 | h1
      · simp [h1]
      · simp [List.mem_cons_of_mem, h1]
    · rw [if_neg hy]
      rcases List.mem_cons.mp (ih acc) with h1 | h1
      · simp [h1]
      · simp [List.mem_cons_of_mem, h1]

/-- The running best of the `argmax` fold dominates the start value and every
inspected pair. -/
lemma pick_foldl_max (xs : List (List Addr × ℕ)) (acc : List Addr × ℕ) :
    acc.2 ≤ (xs.foldl (fun best y => if y.2 > best.2 then y else best) acc).2
      ∧ ∀ y ∈ xs,
        y.2 ≤ (xs.foldl (fun best y => if y.2 > best.2 then y else best) acc).2 := by
  induction xs generalizing acc with
  | nil => simp
  | cons y ys ih =>
    simp only [List.foldl_cons]
    by_cases hy : y.2 > acc.2
    · rw [if_pos hy]
      refine ⟨le_trans (le_of_lt hy) (ih y).1, ?_⟩
      intro z hz
      rcases List.mem_cons.mp hz with h | hz'
      · rw [h]; exact (ih y).1
      · exact (ih y).2 z hz'
    · rw [if_neg hy]
      refine ⟨(ih acc).1, ?_⟩
      intro z hz
      rcases List.mem_cons.mp hz with h | hz'
      · rw [h]; exact le_trans (not_lt.mp hy) (ih acc).1
      · exact (ih acc).2 z hz'

/-- A returned best pair belongs to the list and has maximal output. -/
lemma pickBest_spec (l : List (List Addr × ℕ)) (x : List Addr × ℕ)
    (h : pickBest l = some x) : x ∈ l ∧ ∀ y ∈ l, y.2 ≤ x.2 := by
  cases l with
  | nil => cases h
  | cons a as =>
    simp only [pickBest, Option.some.injEq] at h
    subst h
    refine ⟨pick_foldl_mem as a, ?_⟩
    intro y hy
    rcases List.mem_cons.mp hy with h | h
    · rw [h]; exact (pick_foldl_max as a).1
    · exact (pick_foldl_max as a).2 y h

/-- The fold returns nothing exactly on the empty list. -/
lemma pickBest_eq_none (l : List (List Addr × ℕ)) : pickBest l = none ↔ l = [] := by
  cases l <;> simp [pickBest]

/-- The running best index of the Python `max(range(n), key=...)` fold
dominates the start index and every inspected index. -/
lemma argmax_foldl_max (xs : List ℚ) (is : List ℕ) (b : ℕ) :
    xs.getD b 0
        ≤ xs.getD (is.foldl (fun best i => if xs.getD i 0 > xs.getD best 0 then i else best) b) 0
      ∧ ∀ i ∈ is,
        xs.getD i 0
          ≤ xs.getD (is.foldl (fun best i => if xs.getD i 0 > xs.getD best 0 then i else best) b) 0 := by
  induction is generalizing b with
  | nil => simp
  | cons i is' ih =>
    simp only [List.foldl_cons]
    by_cases hy : xs.getD i 0 > xs.getD b 0
    · rw [if_pos hy]
      refine ⟨le_trans (le_of_lt hy) (ih i).1, ?_⟩
      intro z hz
      rcases List.mem_cons.mp hz with h | hz'
      · rw [h]; exact (ih i).1
      · exact (ih i).2 z hz'
    · rw [if_neg hy]
      refine ⟨(ih b).1, ?_⟩
      intro z hz
      rcases List.mem_cons.mp hz with h | hz'
      · rw [h]; exact le_trans (not_lt.mp hy) (ih b).1
      · exact (ih b).2 z hz'

/-- The result of the `argmax` fold is the start index or an inspected one. -/
lemma argmax_foldl_mem (xs : List ℚ) (is : List ℕ) (b : ℕ) :
    is.foldl (fun best i => if xs.getD i 0 > xs.getD best 0 then i else best) b = b
      ∨ is.foldl (fun best i => if xs.getD i 0 > xs.getD best 0 then i else best) b ∈ is := by
  induction is generalizing b with
  | nil => simp
  | cons i is' ih =>
    simp only [List.foldl_cons]
    by_cases hy : xs.getD i 0 > xs.getD b 0
    · rw [if_pos hy]
      rcases ih i with h | h
      · right; rw [h]; exact List.mem_cons_self i is'
      · right; exact List.mem_cons_of_mem i h
    · rw [if_neg hy]
      rcases ih b with h | h
      · left; exact h
      · right; exact List.mem_cons_of_mem i h

/-- The selected index carries a maximal entry. -/
lemma argmaxIdx_max (xs : List ℚ) (j : ℕ) (hj : j < xs.length) :
    xs.getD j 0 ≤ xs.getD (argmaxIdx xs) 0 :=
  (argmax_foldl_max xs (List.range xs.length) 0).2 j (List.mem_range.mpr hj)

/-- On a non-empty list the selected index is in range. -/
lemma argmaxIdx_lt_length (xs : List ℚ) (h : xs ≠ []) : argmaxIdx xs < xs.length := by
  unfold argmaxIdx
  rcases argmax_foldl_mem xs (List.range xs.length) 0 with h0 | hm
  · rw [h0]; exact List.length_pos.mpr h
  · exact List.mem_range.mp hm

/-- Reading the mapped balance list at an index agrees with the balance of
the pool list read at that index. -/
lemma map_getD_bal (net : Network) (token : Addr) (lps : List (Option Addr))
    (j : ℕ) (hj : j < lps.length) :
    (lps.map (lp_token_balance net token)).getD j 0
      = lp_token_balance net token (lps.getD j none) := by
  rw [List.getD_eq_getElem _ _ (by simpa using hj), List.getD_eq_getElem _ _ hj,
    List.getElem_map]

/-- Evaluation of `calculate_price_impact` when price, path and predicted
output are all provided and the output equals the fair quote (both sides
normalized to 18 decimals): the slippage term vanishes, leaving exactly the
negated flat fee. -/
lemma calculate_price_impact_fair (net : Network) (token : Addr) (amount_in : ℕ)
    (sell : Bool) (tp : ℚ) (out : ℕ) (path : List Addr) (first last : Addr)
    (husd : net.price_in_usd = false)
    (h0 : sell = false → tp ≠ 0)
    (hhead : path.head? = some first)
    (hlast : path.getLast? = some last)
    (hq : (if sell then (amount_in : ℚ) * tp else (amount_in : ℚ) / tp)
        * (10 : ℚ) ^ ((18 : ℤ) - net.decimals first) ≠ 0)
    (ho : (out : ℚ) * (10 : ℚ) ^ ((18 : ℤ) - net.decimals last)
        = (if sell then (amount_in : ℚ) * tp else (amount_in : ℚ) / tp)
          * (10 : ℚ) ^ ((18 : ℤ) - net.decimals first)) :
    calculate_price_impact net token amount_in sell (some tp) (some path) (some out)
      = some (0 - (if path.length = 2 then (25 : ℚ) / 10 ^ 4 else 49375 / 10 ^ 7)) := by
  unfold calculate_price_impact
  cases sell with
  | false =>
    have htp : tp ≠ 0 := h0 rfl
    simp only [Bool.false_eq_true, if_false] at hq ho ⊢
    simp only [husd, htp, Option.pure_def, Option.bind_eq_bind, Option.some_bind,
      Bool.false_eq_true, if_false, ite_false]
    simp only [hhead, hlast, Option.some_bind]
    rw [if_neg hq, ho]
    simp
  | true =>
    simp only [if_true, ite_true] at hq ho ⊢
    simp only [husd, Option.pure_def, Option.bind_eq_bind, Option.some_bind,
      Bool.false_eq_true, if_false, ite_false]
    simp only [hhead, hlast, Option.some_bind]
    rw [if_neg hq, ho]
    simp

/-! ## Claims -/

/-- C4: a price tick of exactly 0 is a no-op for every order in every state:
the watcher neither fires nor arms, and all state fields are unchanged. -/
theorem c4_zero_price_tick_is_noop (w : OrderWatcher) : price_update w 0 = (w, false) :=
  price_update_zero w

/-- C5: the nonce placed in the transaction parameters is
`max(cached next nonce, on-chain transaction count)`, and after
`build_and_send_tx` — whatever the outcome of the raw send, success or raised
error — the cached next nonce equals the used nonce plus one (also on the
default-parameters path). -/
theorem c5_nonce_allocation_and_advance (net : Network)
    (value? gas? gas_price? : Option ℕ) (send_result : Except String ℕ)
    (params : TxParams) :
    (get_tx_params net value? gas? gas_price?).nonce
        = max net.last_nonce net.transaction_count
      ∧ (build_and_send_tx net send_result (some params)).2.last_nonce
        = params.nonce + 1
      ∧ (build_and_send_tx net send_result none).2.last_nonce
        = max net.last_nonce net.transaction_count + 1
      ∧ (build_and_send_tx net send_result (some params)).1 = send_result :=
  ⟨rfl, rfl, rfl, rfl⟩

/-- C1 counterexample: an armed trailing buy order with recorded minimum 8
and a 5% callback does not fire at price 8.4 (= 42/5), although 8.4 ≥ 8.4 —
the retracement is then exactly 5%, which does not strictly exceed the
callback. -/
theorem c1_counterexample :
    armedTrailingBuyW.min_price = some 8
      ∧ armedTrailingBuyW.trailing_stop = some 5
      ∧ (42 / 5 : ℚ) ≥ 42 / 5
      ∧ (price_update armedTrailingBuyW (42 / 5)).2 = false := by
  refine ⟨rfl, rfl, le_refl _, ?_⟩
  rw [price_update_eq_buy _ _ rfl rfl,
    price_update_buy_armed armedTrailingBuyW (42 / 5) 8 5 rfl rfl
      (by norm_num) rfl (by norm_num),
    if_neg (by norm_num), if_neg (by norm_num)]

/-- C1 (amended): an armed trailing-stop order fires exactly when the
retracement from the recorded extremum toward the tick price *strictly*
exceeds `trailing_stop`: the rise `(p/min_price - 1)·100` for below-orders,
the drop `(1 - p/max_price)·100` for above-orders; in particular with
recorded minimum 8 and a 5% callback it fires at every price strictly above
8.4 and at no price ≤ 8.4. -/
theorem c1_trailing_fire_exactly_on_retracement :
    (∀ (w : OrderWatcher) (p m : ℚ) (ts : ℤ),
        w.type = OrderType.buy → w.active = true → w.above = false →
        w.trailing_stop = some ts → 0 < ts → w.min_price = some m → 0 < m →
        p ≠ 0 → ((price_update w p).2 = true ↔ (p / m - 1) * 100 > (ts : ℚ)))
    ∧ (∀ (w : OrderWatcher) (p m : ℚ) (ts : ℤ),
        w.type = OrderType.sell → w.active = true → w.above = true →
        w.trailing_stop = some ts → 0 < ts → w.max_price = some m → 0 < m →
        p ≠ 0 → ((price_update w p).2 = true ↔ (1 - p / m) * 100 > (ts : ℚ)))
    ∧ ∀ p : ℚ, p ≠ 0 →
        ((price_update armedTrailingBuyW p).2 = true ↔ p > 42 / 5) := by
  refine ⟨fun w p m ts hty hact hab hts hts0 hmin hm hp =>
      price_update_fire_iff_buy w p m ts hty hact hab hts hts0 hmin hm hp,
    fun w p m ts hty hact hab hts hts0 hmax hm hp =>
      price_update_fire_iff_sell w p m ts hty hact hab hts hts0 hmax hm hp,
    fun p hp => ?_⟩
  rw [price_update_fire_iff_buy armedTrailingBuyW p 8 5 rfl rfl rfl rfl
    (by norm_num) rfl (by norm_num) hp]
  have h5 : ((5 : ℤ) : ℚ) = 5 := by norm_num
  rw [h5]
  constructor <;> intro h <;> linarith

/-- C1 witness: a tick at 9 on the armed order (rise 12.5% > 5%) fires. -/
theorem c1_witness : (price_update armedTrailingBuyW 9).2 = true :=
  (c1_trailing_fire_exactly_on_retracement.2.2 9 (by norm_num)).mpr (by norm_num)

/-- C2 counterexample: a market order (no limit price) carrying a trailing
stop — exactly what the "sell now with trailing stop loss" flow creates —
does not trigger settlement on the first tick: it only arms, recording the
tick as the extremum. -/
theorem c2_counterexample :
    marketTrailingSellW.limit_price = none
      ∧ marketTrailingSellW.active = true
      ∧ (1 : ℚ) ≠ 0
      ∧ (price_update marketTrailingSellW 1).2 = false
      ∧ (price_update marketTrailingSellW 1).1.max_price = some 1 := by
  have harm : price_update marketTrailingSellW 1
      = ({ marketTrailingSellW with max_price := some 1 }, false) := by
    rw [price_update_eq_sell _ _ rfl rfl,
      price_update_sell_arm marketTrailingSellW 1 5 rfl rfl (by norm_num) rfl
        (by norm_num) (by simp [marketTrailingSellW])]
  refine ⟨rfl, rfl, by norm_num, ?_, ?_⟩ <;> rw [harm]

/-- C2 (amended): for an order without a limit price, a first tick at any
non-zero price satisfies the trigger comparison (the own price of the tick is the
trigger price): if the order has no trailing stop, it triggers settlement on
that tick; if it has a trailing stop, it arms on that tick — recording the
price as the initial extremum — and does not fire. -/
theorem c2_market_order_first_tick :
    (∀ (w : OrderWatcher) (p : ℚ),
        w.active = true → w.limit_price = none → w.trailing_stop = none →
        ((w.type = OrderType.buy ∧ w.above = false) ∨ w.type = OrderType.sell) →
        p ≠ 0 → (price_update w p).2 = true)
    ∧ (∀ (w : OrderWatcher) (p : ℚ) (ts : ℤ),
        w.active = true → w.limit_price = none → w.trailing_stop = some ts →
        0 < ts → p ≠ 0 →
        ((w.type = OrderType.buy → w.above = false → w.min_price = none →
            price_update w p = ({ w with min_price := some p }, false))
          ∧ (w.type = OrderType.sell → w.above = true → w.max_price = none →
            price_update w p = ({ w with max_price := some p }, false)))) := by
  constructor
  · rintro w p hact hlimit hts (⟨hty, hab⟩ | hty) hp
    · rw [price_update_eq_buy w p hact hty,
        price_update_buy_market_fires w p hlimit hts hab hp]
    · rw [price_update_eq_sell w p hact hty,
        price_update_sell_market_fires w p hlimit hts hp]
  · intro w p ts hact hlimit hts hts0 hp
    constructor
    · intro hty hab hmin
      rw [price_update_eq_buy w p hact hty,
        price_update_buy_arm w p ts hab hts hts0 hmin hp (by rw [hlimit]; simp)]
    · intro hty hab hmax
      rw [price_update_eq_sell w p hact hty,
        price_update_sell_arm w p ts hab hts hts0 hmax hp (by rw [hlimit]; simp)]

/-- C2 witness: a market buy order (no trailing stop) fires on its first
tick at price 7. -/
theorem c2_witness : (price_update marketBuyW 7).2 = true :=
  c2_market_order_first_tick.1 marketBuyW 7 rfl rfl rfl (Or.inl ⟨rfl, rfl⟩)
    (by norm_num)

/-- C3: on the first non-zero tick where the plain comparison holds, a
trailing-stop order arms, recording the price of that tick as the initial extremum
(`min_price` for below/buy orders, `max_price` for above/sell orders) without
firing; and on every tick the recorded extremum evolves monotonically
(`min_price` never increases, `max_price` never decreases). -/
theorem c3_arming_and_extremum_monotonicity :
    (∀ (w : OrderWatcher) (p : ℚ) (ts : ℤ),
        w.type = OrderType.buy → w.active = true → w.above = false →
        w.trailing_stop = some ts → 0 < ts → w.min_price = none → p ≠ 0 →
        p ≤ w.limit_price.getD p →
        price_update w p = ({ w with min_price := some p }, false))
    ∧ (∀ (w : OrderWatcher) (p : ℚ) (ts : ℤ),
        w.type = OrderType.sell → w.active = true → w.above = true →
        w.trailing_stop = some ts → 0 < ts → w.max_price = none → p ≠ 0 →
        p ≥ w.limit_price.getD p →
        price_update w p = ({ w with max_price := some p }, false))
    ∧ (∀ (w : OrderWatcher) (p m : ℚ), w.min_price = some m →
        ∃ m', (price_update w p).1.min_price = some m' ∧ m' ≤ m)
    ∧ (∀ (w : OrderWatcher) (p m : ℚ), w.max_price = some m →
        ∃ m', (price_update w p).1.max_price = some m' ∧ m ≤ m') := by
  refine ⟨fun w p ts hty hact hab hts hts0 hmin hp hcmp => ?_,
    fun w p ts hty hact hab hts hts0 hmax hp hcmp => ?_,
    fun w p m hmin => price_update_min_mono w p m hmin,
    fun w p m hmax => price_update_max_mono w p m hmax⟩
  · rw [price_update_eq_buy w p hact hty,
      price_update_buy_arm w p ts hab hts hts0 hmin hp hcmp]
  · rw [price_update_eq_sell w p hact hty,
      price_update_sell_arm w p ts hab hts hts0 hmax hp hcmp]

/-- C3 witness: a fresh trailing buy order with limit 10 arms at price 9
(recording minimum 9, not firing), and a fresh trailing sell order with limit
10 arms at price 11 (recording maximum 11, not firing). -/
theorem c3_witness :
    price_update freshTrailingBuyW 9
        = ({ freshTrailingBuyW with min_price := some 9 }, false)
      ∧ price_update freshTrailingSellW 11
        = ({ freshTrailingSellW with max_price := some 11 }, false) :=
  ⟨c3_arming_and_extremum_monotonicity.1 freshTrailingBuyW 9 5 rfl rfl rfl rfl
      (by norm_num) rfl (by norm_num) (by norm_num [freshTrailingBuyW]),
    c3_arming_and_extremum_monotonicity.2.1 freshTrailingSellW 11 5 rfl rfl rfl
      rfl (by norm_num) rfl (by norm_num) (by norm_num [freshTrailingSellW])⟩

/-- C6: `get_best_swap_path` returns, among the candidate paths (direct
token↔WBNB plus one hop via each alternate base token) whose quote call
succeeds, a candidate with the maximum quoted output together with that
output; a reverting candidate is discarded rather than treated as 0; and the
call raises (`none`) if and only if the quote of every candidate reverts. -/
theorem c6_best_swap_path_maximizes_output (net : Network) (token : Addr)
    (amount_in : ℕ) (sell : Bool) :
    (∀ path out,
        get_best_swap_path net token amount_in sell = some (path, out) →
        path ∈ candidate_paths token sell
          ∧ net.getAmountsOut amount_in path = some out
          ∧ ∀ q ∈ candidate_paths token sell, ∀ o,
              net.getAmountsOut amount_in q = some o → o ≤ out)
    ∧ (get_best_swap_path net token amount_in sell = none ↔
        ∀ path ∈ candidate_paths token sell,
          net.getAmountsOut amount_in path = none) := by
  constructor
  · intro path out h
    obtain ⟨hmem, hmax⟩ := pickBest_spec _ _ h
    rw [List.mem_filterMap] at hmem
    obtain ⟨p, hp, hfp⟩ := hmem
    rw [Option.map_eq_some'] at hfp
    obtain ⟨o', ho', heq⟩ := hfp
    injection heq with h1 h2
    subst h1
    subst h2
    refine ⟨hp, ho', ?_⟩
    intro q hq o ho
    exact hmax (q, o) (List.mem_filterMap.mpr ⟨q, hq, by rw [ho]; rfl⟩)
  · unfold get_best_swap_path
    rw [pickBest_eq_none, List.filterMap_eq_nil_iff]
    constructor
    · intro h path hp
      exact Option.map_eq_none'.mp (h path hp)
    · intro h path hp
      rw [h path hp]
      rfl

/-- C6 witness: on a concrete chain state where the direct route quotes 100,
the BUSD route quotes 250 and the USDT route reverts, the returned route is
the BUSD one and its output 250 dominates every successful quote. -/
theorem c6_witness :
    ["TKN", BUSD, WBNB] ∈ candidate_paths "TKN" true
      ∧ routeNet.getAmountsOut 7 ["TKN", BUSD, WBNB] = some 250
      ∧ ∀ q ∈ candidate_paths "TKN" true, ∀ o,
          routeNet.getAmountsOut 7 q = some o → o ≤ 250 :=
  (c6_best_swap_path_maximizes_output routeNet "TKN" 7 true).1
    ["TKN", BUSD, WBNB] 250 (by decide)

/-- C7 counterexample: the v1 factory is never consulted.  On a chain state
whose v1 factory holds a deep pool for the token while the v2 factory has
none, `get_token_price` reports the token as not trading (price 0) instead of
pricing it from the v1 pool. -/
theorem c7_counterexample :
    v1OnlyNet.pairV1 "TKN" WBNB = some "LP1"
      ∧ v1OnlyNet.balanceOf "TKN" "LP1" = 1000
      ∧ v1OnlyNet.balanceOf WBNB "LP1" = 2000
      ∧ get_token_price v1OnlyNet "TKN" = some (0, WBNB) := by
  refine ⟨by decide, by decide, by decide, by decide⟩

/-- C7 (amended): for every non-native token, `get_token_price` looks up the
pool address for every (token, candidate-quote) pair from the *v2* factory
only (the v1 factory is never queried: the result is invariant under any
change of the v1 pair oracle), skips quotes with no pool, and among the pools
that exist computes the price from the pool holding the largest balance of
the target token; in particular, with a shallow WBNB pool (100 tokens) and a
deep BUSD pool (1000 tokens) it returns the reserve ratio of the deep pool. -/
theorem c7_price_from_biggest_v2_pool :
    (∀ (net : Network) (f g : Addr → Addr → Option Addr) (token : Addr),
        get_token_price { net with pairV1 := f } token
          = get_token_price { net with pairV1 := g } token)
    ∧ (∀ (net : Network) (token : Addr) (lps : List (Option Addr)) (j : ℕ),
        j < lps.length →
        lp_token_balance net token (lps.getD j none)
          ≤ lp_token_balance net token (find_biggest_lp net token lps).1)
    ∧ (get_token_price priceNet "TKN" = some (1 / 500, BUSD)
        ∧ priceNet.balanceOf "TKN" "LP_TW" < priceNet.balanceOf "TKN" "LP_TB") := by
  refine ⟨fun net f g token => rfl, ?_, ?_, by decide⟩
  · intro net token lps j hj
    simp only [find_biggest_lp]
    by_cases hnil : lps = []
    · subst hnil; simp at hj
    · have hlen : lps.map (lp_token_balance net token) ≠ [] := by simpa using hnil
      have hi : argmaxIdx (lps.map (lp_token_balance net token)) < lps.length := by
        have h := argmaxIdx_lt_length _ hlen
        simpa using h
      rw [← map_getD_bal net token lps j hj, ← map_getD_bal net token lps _ hi]
      exact argmaxIdx_max _ j (by simpa using hj)
  · have hlps : supported_base_tokens.map (find_lp_address priceNet "TKN")
        = [some "LP_TW", some "LP_TB", none] := by decide
    have hbig : find_biggest_lp priceNet "TKN" [some "LP_TW", some "LP_TB", none]
        = (some "LP_TB", 1) := by decide
    have hlpb : find_lp_address priceNet "TKN" BUSD = some "LP_TB" := by decide
    have hbnbq : get_bnb_price priceNet = some 300 := by
      unfold get_bnb_price
      simp only [show find_lp_address priceNet BUSD WBNB = some "LP_BNB" from
          by decide,
        show priceNet.balanceOf WBNB "LP_BNB" = 2 from by decide,
        show priceNet.balanceOf BUSD "LP_BNB" = 600 from by decide]
      norm_num
    have hraw : lp_raw_price priceNet "TKN" BUSD "LP_TB" 300 = 1 / 500 := by
      unfold lp_raw_price
      simp only [show priceNet.balanceOf BUSD "LP_TB" = 600 from by decide,
        show priceNet.balanceOf "TKN" "LP_TB" = 1000 from by decide,
        show priceNet.decimals BUSD = 18 from rfl,
        show priceNet.decimals "TKN" = 18 from rfl,
        show priceNet.price_in_usd = false from rfl,
        eq_false (show ¬(BUSD = WBNB) from by decide)]
      norm_num
    have hplp : get_token_price_for_lp priceNet "TKN" BUSD true = some (1 / 500) := by
      unfold get_token_price_for_lp
      simp only [hlpb]
      rw [if_neg (by simp)]
      simp only [hbnbq]
      rw [if_neg (by norm_num), if_neg (by simp), hraw,
        if_neg (by norm_num [floatLit_1e30])]
    unfold get_token_price
    rw [if_neg (by simp [priceNet, WBNB]), if_neg (by simp [WBNB])]
    simp only [hlps, hbig]
    norm_num [supported_base_tokens, hplp]
    intro h
    exact absurd h (by simp)

/-- C7 witness: on the two-pool chain state, the balance of the first listed
pool is dominated by the balance of the selected pool. -/
theorem c7_witness :
    lp_token_balance priceNet "TKN" ([some "LP_TW", some "LP_TB", none].getD 0 none)
      ≤ lp_token_balance priceNet "TKN"
          (find_biggest_lp priceNet "TKN" [some "LP_TW", some "LP_TB", none]).1 :=
  c7_price_from_biggest_v2_pool.2.1 priceNet "TKN"
    [some "LP_TW", some "LP_TB", none] 0 (by norm_num)

/-- C9 counterexample: on a fair 3-token-path trade the function returns
exactly `-0.0049375` — the hardcoded constant — which is *not* equal to the
compounded two-hop fee `1-(1-0.0025)² = 0.00499375` that the claim (and the
comment in the code itself, `# 1 - (1-0.25%)^2`) identifies it with. -/
theorem c9_counterexample :
    calculate_price_impact routeNet "TKN" 1000 true (some 1)
        (some ["TKN", BUSD, WBNB]) (some 1000) = some (-(49375 / 10 ^ 7))
      ∧ -(49375 / 10 ^ 7 : ℚ) ≠ -(1 - (1 - 25 / 10 ^ 4) ^ 2) := by
  constructor
  · rw [calculate_price_impact_fair routeNet "TKN" 1000 true 1 1000
      ["TKN", BUSD, WBNB] "TKN" WBNB rfl (by simp) rfl rfl
      (by norm_num [show routeNet.decimals "TKN" = 18 from rfl])
      (by norm_num [show routeNet.decimals "TKN" = 18 from rfl,
        show routeNet.decimals WBNB = 18 from rfl])]
    norm_num
  · norm_num

/-- C9 (amended): for a trade whose AMM-quoted output equals the fair output
implied by the provided pool-ratio price (both normalized to 18 decimals),
`calculate_price_impact` returns exactly the negated hardcoded flat fee:
`-0.0025` for a direct 2-token path and `-0.0049375` for a 3-token path (the
latter constant differs slightly from the exact compounded two-hop fee
`1-(1-0.0025)² = 0.00499375`). -/
theorem c9_fair_trade_impact_is_minus_fee :
    (∀ (net : Network) (token : Addr) (amount_in : ℕ) (sell : Bool) (tp : ℚ)
        (out : ℕ) (a b : Addr),
        net.price_in_usd = false →
        (sell = false → tp ≠ 0) →
        (if sell then (amount_in : ℚ) * tp else (amount_in : ℚ) / tp)
            * (10 : ℚ) ^ ((18 : ℤ) - net.decimals a) ≠ 0 →
        (out : ℚ) * (10 : ℚ) ^ ((18 : ℤ) - net.decimals b)
            = (if sell then (amount_in : ℚ) * tp else (amount_in : ℚ) / tp)
              * (10 : ℚ) ^ ((18 : ℤ) - net.decimals a) →
        calculate_price_impact net token amount_in sell (some tp) (some [a, b])
            (some out) = some (-(25 / 10 ^ 4)))
    ∧ (∀ (net : Network) (token : Addr) (amount_in : ℕ) (sell : Bool) (tp : ℚ)
        (out : ℕ) (a b c : Addr),
        net.price_in_usd = false →
        (sell = false → tp ≠ 0) →
        (if sell then (amount_in : ℚ) * tp else (amount_in : ℚ) / tp)
            * (10 : ℚ) ^ ((18 : ℤ) - net.decimals a) ≠ 0 →
        (out : ℚ) * (10 : ℚ) ^ ((18 : ℤ) - net.decimals c)
            = (if sell then (amount_in : ℚ) * tp else (amount_in : ℚ) / tp)
              * (10 : ℚ) ^ ((18 : ℤ) - net.decimals a) →
        calculate_price_impact net token amount_in sell (some tp)
            (some [a, b, c]) (some out) = some (-(49375 / 10 ^ 7))) := by
  constructor
  · intro net token amount_in sell tp out a b husd h0 hq ho
    rw [calculate_price_impact_fair net token amount_in sell tp out [a, b] a b
      husd h0 rfl rfl hq ho]
    norm_num
  · intro net token amount_in sell tp out a b c husd h0 hq ho
    rw [calculate_price_impact_fair net token amount_in sell tp out [a, b, c]
      a c husd h0 rfl rfl hq ho]
    norm_num

/-- C9 witness: a fair direct-path sell of 500 at price 1 has impact exactly
`-0.0025`. -/
theorem c9_witness :
    calculate_price_impact routeNet "TKN" 500 true (some 1) (some ["TKN", WBNB])
        (some 500) = some (-(25 / 10 ^ 4)) :=
  c9_fair_trade_impact_is_minus_fee.1 routeNet "TKN" 500 true 1 500 "TKN" WBNB
    rfl (by simp)
    (by norm_num [show routeNet.decimals "TKN" = 18 from rfl])
    (by norm_num [show routeNet.decimals "TKN" = 18 from rfl,
      show routeNet.decimals WBNB = 18 from rfl])

/-- C10: the small-value clamp: once the pool and BNB-price lookups succeed,
a computed pool price below the float literal `1e-30` is reported as exactly
0 by `get_token_price_for_lp`; a computed position value below the same
threshold is reported as exactly 0 by `get_token_balance_value`; and a zero
price can never trigger an order — a zero-price tick is a no-op for every
watcher. -/
theorem c10_small_value_clamp :
    (∀ (net : Network) (token base lp : Addr) (bp : ℚ),
        find_lp_address net token base = some lp →
        get_bnb_price net = some bp → bp ≠ 0 →
        lp_raw_price net token base lp bp < floatLit_1e30 →
        get_token_price_for_lp net token base true = some 0)
    ∧ (∀ (net : Network) (token : Addr) (b tp : ℚ),
        tp * b < floatLit_1e30 →
        get_token_balance_value net token (some b) (some tp) = some 0)
    ∧ ∀ (w : OrderWatcher), price_update w 0 = (w, false) := by
  refine ⟨?_, ?_, fun w => price_update_zero w⟩
  · intro net token base lp bp hlp hbnb hbp hraw
    unfold get_token_price_for_lp
    simp only [hlp]
    rw [if_neg (by simp)]
    simp only [hbnb]
    rw [if_neg hbp, if_neg (by simp), if_pos hraw]
  · intro net token b tp h
    unfold get_token_balance_value
    simp only [Option.pure_def, Option.bind_eq_bind, Option.some_bind]
    rw [if_pos h]

/-- C10 witness: on the lopsided pool (10³¹ raw tokens against 1 raw WBNB),
the raw price 10⁻³¹ is clamped to exactly 0, and a position value below the
threshold is likewise clamped to 0. -/
theorem c10_witness :
    get_token_price_for_lp clampNet "TKN" WBNB true = some 0
      ∧ get_token_balance_value clampNet "TKN" (some (1 / 10 ^ 31)) (some 1)
        = some 0 :=
  ⟨c10_small_value_clamp.1 clampNet "TKN" WBNB "LPT" 300 (by decide)
    (by
      unfold get_bnb_price
      simp only [show find_lp_address clampNet BUSD WBNB = some "LPB" from
          by decide,
        show clampNet.balanceOf WBNB "LPB" = 1 from by decide,
        show clampNet.balanceOf BUSD "LPB" = 300 from by decide]
      norm_num)
    (by norm_num)
    (by
      unfold lp_raw_price
      simp only [show clampNet.balanceOf WBNB "LPT" = 1 from by decide,
        show clampNet.balanceOf "TKN" "LPT" = 10 ^ 31 from by decide,
        show clampNet.decimals WBNB = 18 from rfl,
        show clampNet.decimals "TKN" = 18 from rfl,
        show clampNet.price_in_usd = false from rfl,
        eq_self_iff_true]
      norm_num [floatLit_1e30]),
   c10_small_value_clamp.2.1 clampNet "TKN" (1 / 10 ^ 31) 1
     (by norm_num [floatLit_1e30])⟩

/-- C8: settlement is dispatched at most once per watcher: a fired tick
requires an active watcher and leaves it inactive, a tick delivered to an
inactive watcher is a no-op, and over any sequence of ticks at most one
settlement dispatch ever happens. -/
theorem c8_settlement_dispatched_at_most_once :
    (∀ (w : OrderWatcher) (p : ℚ), (price_update w p).2 = true →
        w.active = true ∧ (price_update w p).1.active = false)
    ∧ (∀ (w : OrderWatcher) (p : ℚ), w.active = false →
        price_update w p = (w, false))
    ∧ ∀ (w : OrderWatcher) (ps : List ℚ), (run_ticks w ps).2 ≤ 1 := by
  refine ⟨fun w p h => ⟨price_update_fire_imp_active w p h, ?_⟩,
    fun w p h => price_update_inactive w p h,
    fun w ps => run_ticks_le_one ps w⟩
  rw [price_update_active, h]
  simp

/-- C8 witness: the firing tick at price 3 on a live limit-buy order with
limit 5 leaves the watcher inactive. -/
theorem c8_witness :
    limitBuyW.active = true ∧ (price_update limitBuyW 3).1.active = false :=
  c8_settlement_dispatched_at_most_once.1 limitBuyW 3 (by
    rw [price_update_eq_buy _ _ rfl rfl]
    norm_num [price_update_buy, close, limitBuyW, truthy])

end Pancaketrade
